import Mathlib

/-!
Shallow embedding of the EVE scoring engine (`eve_models.py`, `eve_scoring.py`).

Monetary and probabilistic quantities are modelled as rationals (`ℚ`), so the
cost/benefit layer is exact and executable; the logistic transform and
everything downstream of it (pillar scores, EVI) live in `ℝ` because the source
uses `math.exp`.  Python exceptions are modelled with `Except String`; a raised
exception carries no result, exactly like the source's `raise ValueError`.
-/

namespace EVE

/-- Embeds `SourceType` from `eve_models.py` (`Literal["provided", "assumed", "estimated"]`). -/
inductive SourceType where
  | provided
  | assumed
  | estimated
deriving DecidableEq, Repr

/-- Embeds `Note` model. -/
structure Note where
  text : String
  source : SourceType := .provided
deriving DecidableEq, Repr

/-- Embeds `Company` model. -/
structure Company where
  industry : String
  revenue : Option ℚ := none
  ebitda_margin : Option ℚ := none
deriving DecidableEq, Repr

/-- Embeds `Meta` model: `horizon_years` is `conint(ge=1, le=15)`, `discount_rate` is
`confloat(ge=0.0, le=0.5)`; those pydantic range constraints are captured by
`Deal.Valid` below rather than by the field types. -/
structure Meta where
  company : Company
  horizon_years : ℕ := 5
  discount_rate : ℚ := 1/10
  currency : String := "USD"
deriving DecidableEq, Repr

/-- Embeds `Investment` model. -/
structure Investment where
  capex_upfront : ℚ := 0
  opex_annual : List ℚ
deriving DecidableEq, Repr

/-- Embeds `V1CapitalProductivity` model. -/
structure V1CapitalProductivity where
  fcf_benefit_annual : Option (List ℚ) := none
  notes : List Note := []
deriving DecidableEq, Repr

/-- Embeds `RiskEvent` model. -/
structure RiskEvent where
  name : String
  p0 : ℚ
  p1 : ℚ
  L0 : ℚ
  L1 : ℚ
deriving DecidableEq, Repr

/-- Embeds `Initiative` model. -/
structure Initiative where
  name : String
  months_accel : ℚ
  monthly_profit : ℚ
  prob : ℚ
deriving DecidableEq, Repr

/-- Embeds `OptionOpportunity` model. -/
structure OptionOpportunity where
  name : String
  prob : ℚ
  npv_if_pursued : ℚ
  feasibility_lift : ℚ
  exercise_cost_reduction_pv : ℚ := 0
deriving DecidableEq, Repr

/-- Embeds `V4OQI` model. -/
structure V4OQI where
  flexibility : ℚ := 0
  portability : ℚ := 0
  data_liquidity : ℚ := 0
  scalability : ℚ := 0
deriving DecidableEq, Repr

/-- Embeds `ResilienceScenario` model. -/
structure ResilienceScenario where
  name : String
  p : ℚ
  mttr0_hours : ℚ
  mttr1_hours : ℚ
  cost_per_hour : ℚ
deriving DecidableEq, Repr

/-- Embeds `Confidence` model, all fields default 0.3. -/
structure Confidence where
  v1 : ℚ := 3/10
  v2 : ℚ := 3/10
  v3 : ℚ := 3/10
  v4 : ℚ := 3/10
  v5 : ℚ := 3/10
deriving DecidableEq, Repr

/-- Embeds `Deal` model from `eve_models.py`. -/
structure Deal where
  meta : Meta
  investment : Investment
  v1_capital_productivity : Option V1CapitalProductivity := none
  v2_risk_events : Option (List RiskEvent) := none
  v3_initiatives : Option (List Initiative) := none
  v4_options : Option (List OptionOpportunity) := none
  v4_oqi : Option V4OQI := none
  v5_resilience : Option (List ResilienceScenario) := none
  confidence : Confidence := {}
  assumptions_used : List String := []
deriving DecidableEq, Repr

/-- Structural validity of a `Deal`: the pydantic range constraints
(`conint`/`confloat` bounds in `eve_models.py`) together with the
`validate_lengths` model validator. -/
def Deal.Valid (deal : Deal) : Prop :=
  1 ≤ deal.meta.horizon_years ∧ deal.meta.horizon_years ≤ 15 ∧
  0 ≤ deal.meta.discount_rate ∧ deal.meta.discount_rate ≤ 1/2 ∧
  0 ≤ deal.investment.capex_upfront ∧
  (∀ x ∈ deal.investment.opex_annual, 0 ≤ x) ∧
  deal.investment.opex_annual.length = deal.meta.horizon_years ∧
  (∀ v1 ∈ deal.v1_capital_productivity, ∀ fcf ∈ v1.fcf_benefit_annual,
    fcf.length = deal.meta.horizon_years) ∧
  (∀ e ∈ deal.v2_risk_events.getD [],
    0 ≤ e.p0 ∧ e.p0 ≤ 1 ∧ 0 ≤ e.p1 ∧ e.p1 ≤ 1 ∧ 0 ≤ e.L0 ∧ 0 ≤ e.L1) ∧
  (∀ m ∈ deal.v3_initiatives.getD [], 0 ≤ m.months_accel ∧ 0 ≤ m.prob ∧ m.prob ≤ 1) ∧
  (∀ u ∈ deal.v4_options.getD [],
    0 ≤ u.prob ∧ u.prob ≤ 1 ∧ 0 ≤ u.feasibility_lift ∧ u.feasibility_lift ≤ 1 ∧
      0 ≤ u.exercise_cost_reduction_pv) ∧
  (∀ q ∈ deal.v4_oqi,
    0 ≤ q.flexibility ∧ q.flexibility ≤ 5 ∧ 0 ≤ q.portability ∧ q.portability ≤ 5 ∧
      0 ≤ q.data_liquidity ∧ q.data_liquidity ≤ 5 ∧ 0 ≤ q.scalability ∧ q.scalability ≤ 5) ∧
  (∀ s ∈ deal.v5_resilience.getD [],
    0 ≤ s.p ∧ s.p ≤ 1 ∧ 0 ≤ s.mttr0_hours ∧ 0 ≤ s.mttr1_hours ∧ 0 ≤ s.cost_per_hour)

/-- The five-pillar weight record of `EVEConfig.weights`
(`Dict[str, float]` with keys `"v1".."v5"` in the source). -/
structure Weights where
  v1 : ℚ
  v2 : ℚ
  v3 : ℚ
  v4 : ℚ
  v5 : ℚ
deriving DecidableEq, Repr

/-- Embeds `sum(self.weights.values())`. -/
def Weights.total (w : Weights) : ℚ := w.v1 + w.v2 + w.v3 + w.v4 + w.v5

/-- The default weight mapping installed by `EVEConfig.__post_init__` when
`weights is None`. -/
def defaultWeights : Weights :=
  { v1 := 25/100, v2 := 20/100, v3 := 20/100, v4 := 20/100, v5 := 15/100 }

/-- Embeds `EVEConfig` dataclass (weights already validated / defaulted). -/
structure EVEConfig where
  weights : Weights := defaultWeights
  logistic_a : ℚ := 6
  logistic_b : ℚ := 1/10
deriving DecidableEq, Repr

instance : Inhabited EVEConfig := ⟨{}⟩

/-- Embeds `EVEConfig` construction, i.e. the dataclass constructor followed by
`__post_init__`: defaults `weights` when absent, then raises unless the weight
values sum to 1.0 within `1e-6`. -/
def mkEVEConfig (weights : Option Weights) (logistic_a : ℚ := 6) (logistic_b : ℚ := 1/10) :
    Except String EVEConfig :=
  let w := weights.getD defaultWeights
  if |w.total - 1| > 1/1000000 then
    .error "Weights must sum to 1.0"
  else
    .ok { weights := w, logistic_a := logistic_a, logistic_b := logistic_b }

/-- Embeds `clamp(x, lo, hi) = max(lo, min(hi, x))` (generic: used on `ℚ`). -/
def clamp (x lo hi : ℚ) : ℚ := max lo (min hi x)

/-- Embeds `discount_factors(T, r) = [1/(1+r)**t for t in range(1, T+1)]`. -/
def discount_factors (T : ℕ) (r : ℚ) : List ℚ :=
  (List.range T).map (fun t => 1 / (1 + r) ^ (t + 1))

/-- Embeds `compute_pv_cost`: capex plus the discounted opex stream over the horizon. -/
def compute_pv_cost (deal : Deal) (d : List ℚ) : ℚ :=
  deal.investment.capex_upfront +
    ((List.range deal.meta.horizon_years).map
      (fun t => d.getD t 0 * deal.investment.opex_annual.getD t 0)).sum

/-- Embeds `compute_v1`: discounted sum of the annual FCF benefits; 0 when the pillar
dataset (or its `fcf_benefit_annual` list) is absent. -/
def compute_v1 (deal : Deal) (d : List ℚ) : ℚ :=
  match deal.v1_capital_productivity with
  | none => 0
  | some v1 =>
    match v1.fcf_benefit_annual with
    | none => 0
    | some fcf =>
      ((List.range deal.meta.horizon_years).map (fun t => d.getD t 0 * fcf.getD t 0)).sum

/-- Embeds `compute_v2`: constant annual risk reduction `Σ (p0*L0 - p1*L1)`, treated
as an annuity over the horizon. -/
def compute_v2 (deal : Deal) (d : List ℚ) : ℚ :=
  let events := deal.v2_risk_events.getD []
  let annual_reduction := (events.map (fun e => e.p0 * e.L0 - e.p1 * e.L1)).sum
  ((List.range deal.meta.horizon_years).map (fun t => d.getD t 0 * annual_reduction)).sum

/-- Embeds `compute_v3`: each initiative contributes `d[0] * (prob * months_accel *
monthly_profit)` — discounted at period 1 only. -/
def compute_v3 (deal : Deal) (d : List ℚ) : ℚ :=
  let inits := deal.v3_initiatives.getD []
  (inits.map (fun m => d.getD 0 0 * (m.prob * m.months_accel * m.monthly_profit))).sum

/-- Embeds `compute_v4`: raw option value scaled by the OQI multiplier (1.0 when the
OQI record is absent). -/
def compute_v4 (deal : Deal) : ℚ :=
  let opts := deal.v4_options.getD []
  let raw := (opts.map
    (fun u => u.prob * (u.feasibility_lift * u.npv_if_pursued + u.exercise_cost_reduction_pv))).sum
  let oqi : ℚ :=
    match deal.v4_oqi with
    | none => 1
    | some q =>
      let A := clamp q.flexibility 0 5
      let V := clamp q.portability 0 5
      let D := clamp q.data_liquidity 0 5
      let S := clamp q.scalability 0 5
      (A + V + D + S) / 20
  oqi * raw

/-- Embeds `compute_v5`: constant annual resilience saving, annuitised like V2. -/
def compute_v5 (deal : Deal) (d : List ℚ) : ℚ :=
  let scenarios := deal.v5_resilience.getD []
  let annual_reduction :=
    (scenarios.map (fun s => s.p * (s.mttr0_hours - s.mttr1_hours) * s.cost_per_hour)).sum
  ((List.range deal.meta.horizon_years).map (fun t => d.getD t 0 * annual_reduction)).sum

/-- Python's `.strip().lower()` name normalization: drop leading and trailing
whitespace, then lower-case (implemented structurally on the character list so
it evaluates by kernel reduction). -/
def pyStripLower (s : String) : String :=
  ⟨(((s.data.dropWhile Char.isWhitespace).reverse.dropWhile
      Char.isWhitespace).reverse).map Char.toLower⟩

/-- The lower-cased, trimmed names of the V2 risk events
(`(e.name or "").strip().lower()`). -/
def v2Names (deal : Deal) : List String :=
  (deal.v2_risk_events.getD []).map (fun e => pyStripLower e.name)

/-- The lower-cased, trimmed names of the V5 resilience scenarios. -/
def v5Names (deal : Deal) : List String :=
  (deal.v5_resilience.getD []).map (fun s => pyStripLower s.name)

/-- Embeds `sorted(list(v2_names.intersection(v5_names)))`: the distinct normalized
names present on both sides, in ascending order. -/
def nameOverlap (deal : Deal) : List String :=
  (((v2Names deal).filter (fun n => n ∈ v5Names deal)).dedup).insertionSort (· ≤ ·)

/-- The single warning string emitted for a non-empty overlap. -/
def doubleCountWarning (overlap : List String) : String :=
  "Potential double counting for: " ++ String.intercalate ", " overlap ++
    ". Ensure V2 captures probability/impact changes and V5 captures MTTR severity only."

/-- Embeds `detect_double_counting`: one warning when the normalized V2 and V5 name
sets intersect, otherwise none. -/
def detect_double_counting (deal : Deal) : List String :=
  let overlap := nameOverlap deal
  if overlap.isEmpty then [] else [doubleCountWarning overlap]

/-- Embeds `logistic_score(R, a, b) = 100.0 / (1.0 + math.exp(-a * (R - b)))`,
modelled over the reals. -/
noncomputable def logistic_score (R a b : ℝ) : ℝ :=
  100 / (1 + Real.exp (-a * (R - b)))

/-- A per-pillar record, standing for the `{"v1": .., ..., "v5": ..}` dicts the
source builds for benefits, ratios, scores and clamped confidences. -/
structure Pillars (α : Type) where
  v1 : α
  v2 : α
  v3 : α
  v4 : α
  v5 : α

/-- One entry of the sensitivity output:
`{"factor": key, "label": label, "delta_evi": ...}`. -/
structure SensEntry where
  factor : String
  label : String
  delta_evi : ℝ

/-- The `Result` dict built by `compute_eve`. -/
structure EVEResult where
  pv_cost : ℚ
  pillar_pv_benefits : Pillars ℚ
  pillar_ratios : Pillars ℚ
  pillar_scores : Pillars ℝ
  weights : Weights
  EVI : ℝ
  EVI_conf : ℝ
  confidence_weighted : ℚ
  warnings : List String
  sensitivities : List SensEntry
  config_logistic_a : ℚ
  config_logistic_b : ℚ

/-- The present-value cost of a deal as `compute_eve` computes it: the pillar
pipeline's shared `pv_cost = compute_pv_cost(deal, discount_factors(T, r))`. -/
def pvCost (deal : Deal) : ℚ :=
  compute_pv_cost deal (discount_factors deal.meta.horizon_years deal.meta.discount_rate)

/-- The result dict assembled by the body of `compute_eve` (before the
sensitivity pass fills `sensitivities`, which starts as `[]`).  This is the
`.ok` payload of `computeEveBase`; it is total, but `compute_eve` only ever
returns it under the guard `pv_cost > 0`. -/
noncomputable def baseResult (deal : Deal) (config : EVEConfig) : EVEResult :=
  let T := deal.meta.horizon_years
  let r := deal.meta.discount_rate
  let d := discount_factors T r
  let pv_cost := compute_pv_cost deal d
  let deltaV : Pillars ℚ :=
      ⟨compute_v1 deal d, compute_v2 deal d, compute_v3 deal d, compute_v4 deal,
        compute_v5 deal d⟩
    let ratios : Pillars ℚ :=
      ⟨deltaV.v1 / pv_cost, deltaV.v2 / pv_cost, deltaV.v3 / pv_cost, deltaV.v4 / pv_cost,
        deltaV.v5 / pv_cost⟩
    let a : ℝ := (config.logistic_a : ℝ)
    let b : ℝ := (config.logistic_b : ℝ)
    let scores : Pillars ℝ :=
      ⟨logistic_score (ratios.v1 : ℝ) a b, logistic_score (ratios.v2 : ℝ) a b,
        logistic_score (ratios.v3 : ℝ) a b, logistic_score (ratios.v4 : ℝ) a b,
        logistic_score (ratios.v5 : ℝ) a b⟩
    let w := config.weights
    let evi : ℝ := (w.v1 : ℝ) * scores.v1 + (w.v2 : ℝ) * scores.v2 + (w.v3 : ℝ) * scores.v3 +
      (w.v4 : ℝ) * scores.v4 + (w.v5 : ℝ) * scores.v5
    let c : Pillars ℚ :=
      ⟨clamp deal.confidence.v1 0 1, clamp deal.confidence.v2 0 1, clamp deal.confidence.v3 0 1,
        clamp deal.confidence.v4 0 1, clamp deal.confidence.v5 0 1⟩
    let evi_conf : ℝ := (w.v1 : ℝ) * ((c.v1 : ℝ) * scores.v1) + (w.v2 : ℝ) * ((c.v2 : ℝ) * scores.v2) +
      (w.v3 : ℝ) * ((c.v3 : ℝ) * scores.v3) + (w.v4 : ℝ) * ((c.v4 : ℝ) * scores.v4) +
      (w.v5 : ℝ) * ((c.v5 : ℝ) * scores.v5)
    let confidence_weighted : ℚ :=
      w.v1 * c.v1 + w.v2 * c.v2 + w.v3 * c.v3 + w.v4 * c.v4 + w.v5 * c.v5
    { pv_cost := pv_cost
      pillar_pv_benefits := deltaV
      pillar_ratios := ratios
      pillar_scores := scores
      weights := w
      EVI := evi
      EVI_conf := evi_conf
      confidence_weighted := confidence_weighted
      warnings := detect_double_counting deal
      sensitivities := []
      config_logistic_a := config.logistic_a
      config_logistic_b := config.logistic_b }

/-- The body of `compute_eve` without the sensitivity pass: raise the
degenerate-economics `ValueError` when `pv_cost <= 0` (returning no result at
all), otherwise return the assembled result. -/
noncomputable def computeEveBase (deal : Deal) (config : EVEConfig) : Except String EVEResult :=
  if pvCost deal ≤ 0 then .error "PV cost must be > 0"
  else .ok (baseResult deal config)

/-- The fixed scenario list of `run_simple_sensitivity`. -/
def sensScenarios : List (String × String) :=
  [("v1_fcf_plus10", "Scale V1 annual FCF benefits +10%"),
   ("v2_p1_minus10", "Reduce V2 post probabilities p1 by 10% (relative)"),
   ("v3_profit_plus10", "Scale V3 monthly profit +10%"),
   ("v5_costhr_plus10", "Scale V5 cost per hour +10%")]

/-- Embeds `copy.deepcopy` on a `Deal`: in the value semantics of the embedding a deep
copy is simply the value itself (mutating the copy builds a new value and can
never reach the original, which is exactly the independence `deepcopy` buys the
imperative source). -/
def deepcopy (deal : Deal) : Deal := deal

/-- The `v1_fcf_plus10` mutation: scale every FCF entry by 1.10, guarded by the
source's truthiness test (`d2.v1_capital_productivity and
d2.v1_capital_productivity.fcf_benefit_annual` — an absent pillar, absent list
or empty list leaves the copy untouched). -/
def perturbV1 (d2 : Deal) : Deal :=
  match d2.v1_capital_productivity with
  | none => d2
  | some v1 =>
    match v1.fcf_benefit_annual with
    | none => d2
    | some fcf =>
      if fcf.isEmpty then d2
      else
        let fcf2 := fcf.map (fun x => x * (11/10))
        { d2 with v1_capital_productivity := some { v1 with fcf_benefit_annual := some fcf2 } }

/-- The `v2_p1_minus10` mutation: scale every event's `p1` by 0.90, re-clamped
to `[0,1]`; skipped when `d2.v2_risk_events` is falsy (`None` or empty). -/
def perturbV2 (d2 : Deal) : Deal :=
  match d2.v2_risk_events with
  | none => d2
  | some events =>
    if events.isEmpty then d2
    else
      let events2 := events.map (fun e => { e with p1 := clamp (e.p1 * (9/10)) 0 1 })
      { d2 with v2_risk_events := some events2 }

/-- The `v3_profit_plus10` mutation: scale every initiative's `monthly_profit`
by 1.10; skipped when `d2.v3_initiatives` is falsy. -/
def perturbV3 (d2 : Deal) : Deal :=
  match d2.v3_initiatives with
  | none => d2
  | some inits =>
    if inits.isEmpty then d2
    else
      let inits2 := inits.map (fun m => { m with monthly_profit := m.monthly_profit * (11/10) })
      { d2 with v3_initiatives := some inits2 }

/-- The `v5_costhr_plus10` mutation: scale every scenario's `cost_per_hour` by
1.10; skipped when `d2.v5_resilience` is falsy. -/
def perturbV5 (d2 : Deal) : Deal :=
  match d2.v5_resilience with
  | none => d2
  | some scenarios =>
    if scenarios.isEmpty then d2
    else
      let scenarios2 := scenarios.map (fun s => { s with cost_per_hour := s.cost_per_hour * (11/10) })
      { d2 with v5_resilience := some scenarios2 }

/-- The body of one loop iteration of `run_simple_sensitivity`: the chain of
four `if key == ... :` guards applied to the scenario's copy `d2`. -/
def applyScenario (key : String) (d2 : Deal) : Deal :=
  let d2 := if key = "v1_fcf_plus10" then perturbV1 d2 else d2
  let d2 := if key = "v2_p1_minus10" then perturbV2 d2 else d2
  let d2 := if key = "v3_profit_plus10" then perturbV3 d2 else d2
  if key = "v5_costhr_plus10" then perturbV5 d2 else d2

/-- Descending order on `abs(delta_evi)` — the sort key
`key=lambda x: abs(x["delta_evi"]), reverse=True`. -/
def sensGE (x y : SensEntry) : Prop := |y.delta_evi| ≤ |x.delta_evi|

noncomputable instance : DecidableRel sensGE := fun _ _ => Classical.dec _

/-- The stable descending sort `out.sort(key=..., reverse=True)` (CPython's
sort is stable, and `reverse=True` keeps tied elements in encounter order;
insertion sort with a non-strict descending comparison has the same
behaviour). -/
noncomputable def sortSens (out : List SensEntry) : List SensEntry :=
  out.insertionSort sensGE

/-- The scenario loop of `run_simple_sensitivity`, in explicit state-passing
form: the loop state is the pair of the deal visible to the loop and the `out`
accumulator.  Each iteration takes a deep copy of the state's deal, applies the
scenario's mutation to that copy only, reruns the pipeline on the copy
(`compute_eve(..., run_sensitivity=False)`, whose exception propagates), and
appends the delta entry.  The deal component of the state is returned so that
the frame property — the original deal leaves the loop unchanged — is a
statement, not a convention. -/
noncomputable def runSensLoop (config : EVEConfig) (base_evi : ℝ) :
    List (String × String) → Deal × List SensEntry → Except String (Deal × List SensEntry)
  | [], st => .ok st
  | (key, label) :: rest, (deal, out) =>
    let d2 := applyScenario key (deepcopy deal)
    match computeEveBase d2 config with
    | .error e => .error e
    | .ok r =>
      runSensLoop config base_evi rest
        (deal, out ++ [{ factor := key, label := label, delta_evi := r.EVI - base_evi }])

/-- Embeds `run_simple_sensitivity`: run the four scenarios, then sort by descending
`abs(delta_evi)`. -/
noncomputable def run_simple_sensitivity (deal : Deal) (config : EVEConfig) (base_evi : ℝ) :
    Except String (List SensEntry) :=
  match runSensLoop config base_evi sensScenarios (deal, []) with
  | .error e => .error e
  | .ok st => .ok (sortSens st.2)

/-- Embeds `compute_eve(deal, config=None, run_sensitivity=True)`: default the config,
run the pipeline, and when `run_sensitivity` is set fill the `sensitivities`
field from `run_simple_sensitivity` (on failure the exception propagates and no
result is produced). -/
noncomputable def compute_eve (deal : Deal) (config : Option EVEConfig := none)
    (run_sensitivity : Bool := true) : Except String EVEResult :=
  let config := config.getD {}
  match computeEveBase deal config with
  | .error e => .error e
  | .ok base =>
    if run_sensitivity then
      match run_simple_sensitivity deal config base.EVI with
      | .error e => .error e
      | .ok sens => .ok { base with sensitivities := sens }
    else .ok base

/-! ### Supporting lemmas -/

theorem discount_factors_length (T : ℕ) (r : ℚ) : (discount_factors T r).length = T := by
  simp [discount_factors]

theorem discount_factors_getD {T i : ℕ} (r : ℚ) (h : i < T) :
    (discount_factors T r).getD i 0 = 1 / (1 + r) ^ (i + 1) := by
  have hlen : i < ((List.range T).map (fun t => 1 / (1 + r) ^ (t + 1))).length := by simpa using h
  rw [discount_factors, List.getD_eq_getElem _ _ hlen]
  simp

theorem discount_factors_getD_nonneg {T i : ℕ} {r : ℚ} (hr : 0 ≤ r) :
    0 ≤ (discount_factors T r).getD i 0 := by
  by_cases h : i < T
  · rw [discount_factors_getD r h]
    have h1 : (0:ℚ) < 1 + r := by linarith
    positivity
  · rw [List.getD_eq_default]
    rw [discount_factors_length]
    omega

theorem logistic_score_eq (R a b : ℝ) :
    logistic_score R a b = 100 / (1 + Real.exp (-a * (R - b))) := rfl

theorem one_add_exp_pos (x : ℝ) : 0 < 1 + Real.exp x := by
  have := Real.exp_pos x
  linarith

theorem logistic_score_strictMono (a b : ℝ) (ha : 0 < a) :
    StrictMono (fun R => logistic_score R a b) := by
  intro x y hxy
  simp only [logistic_score]
  apply div_lt_div_of_pos_left (by norm_num) (one_add_exp_pos _)
  have : -a * (y - b) < -a * (x - b) := by nlinarith
  have := Real.exp_lt_exp.mpr this
  linarith

theorem logistic_score_le_of_le {R R' : ℝ} (a b : ℝ) (ha : 0 < a) (h : R ≤ R') :
    logistic_score R a b ≤ logistic_score R' a b := by
  rcases eq_or_lt_of_le h with h | h
  · rw [h]
  · exact le_of_lt (logistic_score_strictMono a b ha h)

theorem logistic_score_pos (R a b : ℝ) : 0 < logistic_score R a b := by
  simp only [logistic_score]
  positivity

theorem logistic_score_lt_100 (R a b : ℝ) : logistic_score R a b < 100 := by
  simp only [logistic_score]
  have h := Real.exp_pos (-a * (R - b))
  rw [div_lt_iff₀ (one_add_exp_pos _)]
  nlinarith

theorem logistic_score_at_mid (a b : ℝ) : logistic_score b a b = 50 := by
  simp [logistic_score]
  norm_num

theorem logistic_score_tendsto_atBot (a b : ℝ) (ha : 0 < a) :
    Filter.Tendsto (fun R => logistic_score R a b) Filter.atBot (nhds 0) := by
  have h0 : Filter.Tendsto (fun R : ℝ => R - b) Filter.atBot Filter.atBot :=
    Filter.tendsto_atBot_add_const_right _ _ Filter.tendsto_id
  have h1 : Filter.Tendsto (fun R : ℝ => -a * (R - b)) Filter.atBot Filter.atTop :=
    Filter.Tendsto.const_mul_atBot_of_neg (by linarith) h0
  have h2 : Filter.Tendsto (fun R : ℝ => Real.exp (-a * (R - b))) Filter.atBot Filter.atTop :=
    Real.tendsto_exp_atTop.comp h1
  have h3 : Filter.Tendsto (fun R : ℝ => 1 + Real.exp (-a * (R - b))) Filter.atBot Filter.atTop :=
    Filter.tendsto_atTop_add_const_left _ _ h2
  exact Filter.Tendsto.div_atTop tendsto_const_nhds h3

theorem logistic_score_tendsto_atTop (a b : ℝ) (ha : 0 < a) :
    Filter.Tendsto (fun R => logistic_score R a b) Filter.atTop (nhds 100) := by
  have h0 : Filter.Tendsto (fun R : ℝ => R - b) Filter.atTop Filter.atTop :=
    Filter.tendsto_atTop_add_const_right _ _ Filter.tendsto_id
  have h1 : Filter.Tendsto (fun R : ℝ => -a * (R - b)) Filter.atTop Filter.atBot :=
    Filter.Tendsto.const_mul_atTop_of_neg (by linarith) h0
  have h2 : Filter.Tendsto (fun R : ℝ => Real.exp (-a * (R - b))) Filter.atTop (nhds 0) :=
    Real.tendsto_exp_atBot.comp h1
  have h3 : Filter.Tendsto (fun R : ℝ => 1 + Real.exp (-a * (R - b))) Filter.atTop (nhds 1) := by
    simpa using tendsto_const_nhds.add h2
  have hc : Filter.Tendsto (fun _ : ℝ => (100:ℝ)) Filter.atTop (nhds 100) := tendsto_const_nhds
  have h4 := Filter.Tendsto.div hc h3 one_ne_zero
  simp only [div_one] at h4
  exact h4

theorem computeEveBase_eq_ok {deal : Deal} (cfg : EVEConfig) (h : 0 < pvCost deal) :
    computeEveBase deal cfg = .ok (baseResult deal cfg) := by
  rw [computeEveBase, if_neg (not_le.mpr h)]

theorem computeEveBase_eq_error {deal : Deal} (cfg : EVEConfig) (h : pvCost deal ≤ 0) :
    computeEveBase deal cfg = .error "PV cost must be > 0" := by
  rw [computeEveBase, if_pos h]

theorem perturbV1_meta (d : Deal) : (perturbV1 d).meta = d.meta := by
  unfold perturbV1
  repeat' split
  all_goals rfl

theorem perturbV1_investment (d : Deal) : (perturbV1 d).investment = d.investment := by
  unfold perturbV1
  repeat' split
  all_goals rfl

theorem perturbV2_meta (d : Deal) : (perturbV2 d).meta = d.meta := by
  unfold perturbV2
  repeat' split
  all_goals rfl

theorem perturbV2_investment (d : Deal) : (perturbV2 d).investment = d.investment := by
  unfold perturbV2
  repeat' split
  all_goals rfl

theorem perturbV3_meta (d : Deal) : (perturbV3 d).meta = d.meta := by
  unfold perturbV3
  repeat' split
  all_goals rfl

theorem perturbV3_investment (d : Deal) : (perturbV3 d).investment = d.investment := by
  unfold perturbV3
  repeat' split
  all_goals rfl

theorem perturbV5_meta (d : Deal) : (perturbV5 d).meta = d.meta := by
  unfold perturbV5
  repeat' split
  all_goals rfl

theorem perturbV5_investment (d : Deal) : (perturbV5 d).investment = d.investment := by
  unfold perturbV5
  repeat' split
  all_goals rfl

theorem applyScenario_meta (key : String) (d : Deal) : (applyScenario key d).meta = d.meta := by
  unfold applyScenario
  split_ifs <;>
    simp [perturbV1_meta, perturbV2_meta, perturbV3_meta, perturbV5_meta]

theorem applyScenario_investment (key : String) (d : Deal) :
    (applyScenario key d).investment = d.investment := by
  unfold applyScenario
  split_ifs <;>
    simp [perturbV1_investment, perturbV2_investment, perturbV3_investment, perturbV5_investment]

theorem pvCost_congr {d' d : Deal} (h1 : d'.meta = d.meta) (h2 : d'.investment = d.investment) :
    pvCost d' = pvCost d := by
  simp [pvCost, compute_pv_cost, h1, h2]

theorem pvCost_applyScenario (key : String) (d : Deal) : pvCost (applyScenario key d) = pvCost d :=
  pvCost_congr (applyScenario_meta key d) (applyScenario_investment key d)

/-- The unsorted sensitivity entries of a deal, in scenario encounter order,
with the deal's own EVI as baseline (the `out` list of `run_simple_sensitivity`
just before the final sort when invoked from `compute_eve`). -/
noncomputable def sensRawEntries (deal : Deal) (cfg : EVEConfig) : List SensEntry :=
  sensScenarios.map (fun s =>
    ⟨s.1, s.2, (baseResult (applyScenario s.1 (deepcopy deal)) cfg).EVI -
      (baseResult deal cfg).EVI⟩)

theorem runSensLoop_eq (cfg : EVEConfig) (base : ℝ) (l : List (String × String)) {deal : Deal}
    (acc : List SensEntry) (h : 0 < pvCost deal) :
    runSensLoop cfg base l (deal, acc) =
      .ok (deal, acc ++ l.map (fun s =>
        ⟨s.1, s.2, (baseResult (applyScenario s.1 (deepcopy deal)) cfg).EVI - base⟩)) := by
  induction l generalizing acc with
  | nil => simp [runSensLoop]
  | cons s rest ih =>
    obtain ⟨key, label⟩ := s
    have hpv : 0 < pvCost (applyScenario key (deepcopy deal)) := by
      rw [pvCost_applyScenario]
      exact h
    rw [runSensLoop, computeEveBase_eq_ok cfg hpv]
    dsimp only
    rw [ih]
    simp

theorem run_simple_sensitivity_eq {deal : Deal} (cfg : EVEConfig) (base : ℝ)
    (h : 0 < pvCost deal) :
    run_simple_sensitivity deal cfg base =
      .ok (sortSens (sensScenarios.map (fun s =>
        ⟨s.1, s.2, (baseResult (applyScenario s.1 (deepcopy deal)) cfg).EVI - base⟩))) := by
  rw [run_simple_sensitivity, runSensLoop_eq cfg base sensScenarios [] h]
  rfl

/-- The full result produced by `compute_eve` with `run_sensitivity=True` on a
non-degenerate deal. -/
noncomputable def fullResult (deal : Deal) (cfg : EVEConfig) : EVEResult :=
  { baseResult deal cfg with sensitivities := sortSens (sensRawEntries deal cfg) }

theorem compute_eve_false_eq {deal : Deal} (cfg : EVEConfig) (h : 0 < pvCost deal) :
    compute_eve deal (some cfg) false = .ok (baseResult deal cfg) := by
  rw [compute_eve]
  simp [computeEveBase_eq_ok cfg h]

theorem compute_eve_true_eq {deal : Deal} (cfg : EVEConfig) (h : 0 < pvCost deal) :
    compute_eve deal (some cfg) true = .ok (fullResult deal cfg) := by
  rw [compute_eve]
  simp only [Option.getD_some, computeEveBase_eq_ok cfg h,
    run_simple_sensitivity_eq cfg _ h]
  rfl

theorem compute_eve_error {deal : Deal} (cfg : EVEConfig) (rs : Bool) (h : pvCost deal ≤ 0) :
    compute_eve deal (some cfg) rs = .error "PV cost must be > 0" := by
  rw [compute_eve]
  simp [computeEveBase_eq_error cfg h]

instance : IsTotal SensEntry sensGE :=
  ⟨fun a b => le_total |b.delta_evi| |a.delta_evi|⟩

instance : IsTrans SensEntry sensGE :=
  ⟨fun _ _ _ hab hbc => le_trans hbc hab⟩

theorem filter_orderedInsert {α : Type} (r : α → α → Prop) [DecidableRel r] (p : α → Bool)
    (a : α) (l : List α) (hpa : p a = true) (hr : ∀ b, p b = true → r a b) :
    (l.orderedInsert r a).filter p = a :: l.filter p := by
  induction l with
  | nil => simp [hpa]
  | cons b l ih =>
    by_cases hrab : r a b
    · simp [List.orderedInsert, if_pos hrab, List.filter_cons, hpa]
    · have hpb : p b = false := by
        cases hb : p b
        · rfl
        · exact absurd (hr b hb) hrab
      simp [List.orderedInsert, if_neg hrab, List.filter_cons, hpb, ih]

theorem filter_orderedInsert_of_neg {α : Type} (r : α → α → Prop) [DecidableRel r] (p : α → Bool)
    (a : α) (l : List α) (hpa : p a = false) :
    (l.orderedInsert r a).filter p = l.filter p := by
  induction l with
  | nil => simp [hpa]
  | cons b l ih =>
    by_cases hrab : r a b
    · simp [List.orderedInsert, if_pos hrab, List.filter_cons, hpa]
    · simp only [List.orderedInsert, if_neg hrab, List.filter_cons]
      rw [ih]

theorem filter_insertionSort {α : Type} (r : α → α → Prop) [DecidableRel r] (p : α → Bool)
    (l : List α) (hcl : ∀ x y, p x = true → p y = true → r x y) :
    (l.insertionSort r).filter p = l.filter p := by
  induction l with
  | nil => rfl
  | cons a l ih =>
    rw [List.insertionSort]
    cases hpa : p a
    · rw [filter_orderedInsert_of_neg r p a _ hpa, ih]
      simp [List.filter_cons, hpa]
    · rw [filter_orderedInsert r p a _ hpa (fun b hb => hcl a b hpa hb), ih]
      simp [List.filter_cons, hpa]

open Classical in
/-- Membership test for one tie class of the sensitivity sort: entries whose
absolute delta equals `v`. -/
noncomputable def tieb (v : ℝ) (e : SensEntry) : Bool := decide (|e.delta_evi| = v)

theorem tieb_eq_true {v : ℝ} {e : SensEntry} (h : tieb v e = true) : |e.delta_evi| = v := by
  simpa [tieb] using h

theorem sortSens_sorted (out : List SensEntry) : List.Sorted sensGE (sortSens out) :=
  List.sorted_insertionSort sensGE out

theorem sortSens_perm (out : List SensEntry) : List.Perm (sortSens out) out :=
  List.perm_insertionSort sensGE out

theorem sortSens_filter_tieb (v : ℝ) (out : List SensEntry) :
    (sortSens out).filter (tieb v) = out.filter (tieb v) := by
  apply filter_insertionSort
  intro x y hx hy
  unfold sensGE
  rw [tieb_eq_true hx, tieb_eq_true hy]

/-- A concrete structurally valid deal with every pillar populated, used to
instantiate hypothesis-bearing theorems. -/
def sampleDeal : Deal := {
  meta := { company := { industry := "software" }, horizon_years := 2, discount_rate := 1/10 }
  investment := { capex_upfront := 100, opex_annual := [10, 10] }
  v1_capital_productivity := some { fcf_benefit_annual := some [50, 50] }
  v2_risk_events := some [{ name := "outage", p0 := 1/2, p1 := 1/4, L0 := 100, L1 := 80 }]
  v3_initiatives := some [{ name := "launch", months_accel := 3, monthly_profit := 20, prob := 1/2 }]
  v4_options := some [{ name := "platform", prob := 1/2, npv_if_pursued := 100, feasibility_lift := 1/2 }]
  v4_oqi := some { flexibility := 4, portability := 3, data_liquidity := 2, scalability := 5 }
  v5_resilience := some [{ name := "dr", p := 1/10, mttr0_hours := 24, mttr1_hours := 8, cost_per_hour := 5 }] }

theorem sampleDeal_valid : sampleDeal.Valid := by
  unfold Deal.Valid sampleDeal
  norm_num

theorem sampleDeal_pv_pos : 0 < pvCost sampleDeal := by
  norm_num [pvCost, compute_pv_cost, discount_factors, sampleDeal, List.range_succ]

/-! ### Claims -/

/-- C4: for every weight mapping whose values sum to within `1e-6` of 1.0,
`EVEConfig` construction succeeds; for every weight mapping whose values sum
outside that tolerance, construction fails with the configuration error (at
construction time, so before any deal is scored). -/
theorem C4_config_weight_tolerance (w : Weights) (a b : ℚ) :
    ((∃ cfg, mkEVEConfig (some w) a b = .ok cfg) ↔ |w.total - 1| ≤ 1/1000000) ∧
    ((∃ e, mkEVEConfig (some w) a b = .error e) ↔ 1/1000000 < |w.total - 1|) := by
  simp only [mkEVEConfig, Option.getD_some]
  by_cases h : |w.total - 1| > 1/1000000
  · rw [if_pos h]
    constructor
    · constructor
      · rintro ⟨cfg, hcfg⟩
        cases hcfg
      · intro hle
        exact absurd h (not_lt.mpr hle)
    · exact ⟨fun _ => h, fun _ => ⟨_, rfl⟩⟩
  · rw [if_neg h]
    push_neg at h
    refine ⟨⟨fun _ => h, fun _ => ⟨_, rfl⟩⟩, ?_, ?_⟩
    · rintro ⟨e, he⟩
      cases he
    · intro hlt
      exact absurd hlt (not_lt.mpr h)

/-- C6: `discount_factors T r` has length `T`, its 1-indexed element `t` is
`1/(1+r)^t`, every element is 1 when `r = 0`, and successive elements are
non-increasing when `r > 0`. -/
theorem C6_discount_factors_spec (T : ℕ) (r : ℚ) (hT : 1 ≤ T) (hr : -1 ≤ r) :
    (discount_factors T r).length = T ∧
    (∀ i < T, (discount_factors T r).getD i 0 = 1 / (1 + r) ^ (i + 1)) ∧
    (r = 0 → ∀ x ∈ discount_factors T r, x = 1) ∧
    (0 < r → List.Chain' (fun x y => y ≤ x) (discount_factors T r)) := by
  refine ⟨discount_factors_length T r, fun i hi => discount_factors_getD r hi, ?_, ?_⟩
  · intro h0 x hx
    subst h0
    rw [discount_factors] at hx
    simp only [List.mem_map, List.mem_range] at hx
    obtain ⟨t, -, ht⟩ := hx
    rw [← ht]
    norm_num
  · intro hrpos
    have hpw : List.Pairwise (fun x y => y ≤ x) (discount_factors T r) := by
      rw [discount_factors]
      refine List.Pairwise.map _ ?_ (List.pairwise_lt_range T)
      intro i j hij
      have h1 : (0:ℚ) < (1 + r) ^ (i + 1) := by positivity
      apply one_div_le_one_div_of_le h1
      apply pow_le_pow_right₀ (by linarith) (by omega)
    exact hpw.chain'

/-- Closed-instance witness for C6 at `T = 3`, `r = 1/10`. -/
theorem C6_discount_factors_spec_witness :
    (1 ≤ 3 ∧ (-1 : ℚ) ≤ 1/10) ∧
    ((discount_factors 3 (1/10)).length = 3 ∧
      (∀ i < 3, (discount_factors 3 (1/10)).getD i 0 = 1 / (1 + (1/10 : ℚ)) ^ (i + 1)) ∧
      ((1/10 : ℚ) = 0 → ∀ x ∈ discount_factors 3 (1/10), x = 1) ∧
      ((0 : ℚ) < 1/10 → List.Chain' (fun x y => y ≤ x) (discount_factors 3 (1/10)))) :=
  ⟨⟨by norm_num, by norm_num⟩, C6_discount_factors_spec 3 (1/10) (by norm_num) (by norm_num)⟩

/-- C5: for a deal with `horizon_years >= 1`, the V3 pillar benefit is the sum
over initiatives of `prob * months_accel * monthly_profit` multiplied by the
period-1 discount factor `1/(1+r)` only, so it does not depend on the length of
the horizon (no annuity over the horizon, unlike V1/V2/V5). -/
theorem C5_v3_front_loaded (deal : Deal) (hT : 1 ≤ deal.meta.horizon_years) :
    compute_v3 deal (discount_factors deal.meta.horizon_years deal.meta.discount_rate) =
      1 / (1 + deal.meta.discount_rate) *
        ((deal.v3_initiatives.getD []).map
          (fun m => m.prob * m.months_accel * m.monthly_profit)).sum ∧
    compute_v3 deal (discount_factors deal.meta.horizon_years deal.meta.discount_rate) =
      compute_v3 deal (discount_factors 1 deal.meta.discount_rate) := by
  have hd : (discount_factors deal.meta.horizon_years deal.meta.discount_rate).getD 0 0 =
      1 / (1 + deal.meta.discount_rate) := by
    rw [discount_factors_getD _ (by omega)]
    norm_num
  have hd1 : (discount_factors 1 deal.meta.discount_rate).getD 0 0 =
      1 / (1 + deal.meta.discount_rate) := by
    rw [discount_factors_getD _ (by omega)]
    norm_num
  constructor
  · simp only [compute_v3, hd]
    exact List.sum_map_mul_left _ _ _
  · simp only [compute_v3, hd, hd1]

/-- Closed-instance witness for C5 at `sampleDeal`. -/
theorem C5_v3_front_loaded_witness :
    1 ≤ sampleDeal.meta.horizon_years ∧
    compute_v3 sampleDeal
        (discount_factors sampleDeal.meta.horizon_years sampleDeal.meta.discount_rate) =
      1 / (1 + sampleDeal.meta.discount_rate) *
        ((sampleDeal.v3_initiatives.getD []).map
          (fun m => m.prob * m.months_accel * m.monthly_profit)).sum :=
  ⟨by norm_num [sampleDeal], (C5_v3_front_loaded sampleDeal (by norm_num [sampleDeal])).1⟩

/-- C1: for every structurally valid deal and configuration, `compute_eve`
raises the degenerate-economics error exactly when the computed `pv_cost`
(capex plus the discounted sum of `opex_annual`) is `<= 0`; on a raise no
result of any kind is produced (the `Except` is an `error`), and when
`pv_cost > 0` a result is returned. -/
theorem C1_degenerate_economics_iff (deal : Deal) (cfg : EVEConfig) (rs : Bool)
    (hv : deal.Valid) :
    ((∃ res, compute_eve deal (some cfg) rs = .ok res) ↔ 0 < pvCost deal) ∧
    ((∃ e, compute_eve deal (some cfg) rs = .error e) ↔ pvCost deal ≤ 0) ∧
    pvCost deal = deal.investment.capex_upfront +
      ((List.range deal.meta.horizon_years).map
        (fun t => 1 / (1 + deal.meta.discount_rate) ^ (t + 1) *
          deal.investment.opex_annual.getD t 0)).sum := by
  have hform : pvCost deal = deal.investment.capex_upfront +
      ((List.range deal.meta.horizon_years).map
        (fun t => 1 / (1 + deal.meta.discount_rate) ^ (t + 1) *
          deal.investment.opex_annual.getD t 0)).sum := by
    rw [pvCost, compute_pv_cost]
    congr 1
    apply congrArg
    apply List.map_congr_left
    intro t ht
    rw [discount_factors_getD _ (List.mem_range.mp ht)]
  by_cases h : 0 < pvCost deal
  · have hok : ∀ rs : Bool, ∃ res, compute_eve deal (some cfg) rs = .ok res := by
      intro rs
      cases rs
      · exact ⟨_, compute_eve_false_eq cfg h⟩
      · exact ⟨_, compute_eve_true_eq cfg h⟩
    refine ⟨⟨fun _ => h, fun _ => hok rs⟩, ⟨?_, ?_⟩, hform⟩
    · rintro ⟨e, he⟩
      obtain ⟨res, hres⟩ := hok rs
      rw [hres] at he
      cases he
    · intro hle
      exact absurd h (not_lt.mpr hle)
  · push_neg at h
    rw [compute_eve_error cfg rs h]
    refine ⟨⟨?_, ?_⟩, ⟨fun _ => h, fun _ => ⟨_, rfl⟩⟩, hform⟩
    · rintro ⟨res, hres⟩
      cases hres
    · intro hlt
      exact absurd hlt (not_lt.mpr h)

/-- Closed-instance witness for C1 at `sampleDeal` with the default config. -/
theorem C1_degenerate_economics_iff_witness :
    sampleDeal.Valid ∧
    ((∃ res, compute_eve sampleDeal (some {}) true = .ok res) ↔ 0 < pvCost sampleDeal) ∧
    ((∃ e, compute_eve sampleDeal (some {}) true = .error e) ↔ pvCost sampleDeal ≤ 0) :=
  ⟨sampleDeal_valid, (C1_degenerate_economics_iff sampleDeal {} true sampleDeal_valid).1,
    (C1_degenerate_economics_iff sampleDeal {} true sampleDeal_valid).2.1⟩

/-- C3: for fixed `a > 0` and any `b`, the logistic transform is strictly
increasing in `R`, equals exactly 50 at `R = b`, lies strictly between 0 and
100 everywhere, tends to 0 as `R` tends to minus infinity and to 100 as `R`
tends to plus infinity. -/
theorem C3_logistic_shape (a b : ℝ) (ha : 0 < a) :
    StrictMono (fun R => logistic_score R a b) ∧
    logistic_score b a b = 50 ∧
    (∀ R, 0 < logistic_score R a b ∧ logistic_score R a b < 100) ∧
    Filter.Tendsto (fun R => logistic_score R a b) Filter.atBot (nhds 0) ∧
    Filter.Tendsto (fun R => logistic_score R a b) Filter.atTop (nhds 100) :=
  ⟨logistic_score_strictMono a b ha, logistic_score_at_mid a b,
    fun R => ⟨logistic_score_pos R a b, logistic_score_lt_100 R a b⟩,
    logistic_score_tendsto_atBot a b ha, logistic_score_tendsto_atTop a b ha⟩

/-- Closed-instance witness for C3 at the default parameters `a = 6`,
`b = 0.10`. -/
theorem C3_logistic_shape_witness :
    (0 : ℝ) < 6 ∧
    (StrictMono (fun R => logistic_score R 6 (1/10)) ∧
      logistic_score (1/10) 6 (1/10) = 50 ∧
      (∀ R, 0 < logistic_score R 6 (1/10) ∧ logistic_score R 6 (1/10) < 100) ∧
      Filter.Tendsto (fun R => logistic_score R 6 (1/10)) Filter.atBot (nhds 0) ∧
      Filter.Tendsto (fun R => logistic_score R 6 (1/10)) Filter.atTop (nhds 100)) :=
  ⟨by norm_num, C3_logistic_shape 6 (1/10) (by norm_num)⟩

/-- C7: the double-counting detector yields exactly one warning precisely when
the normalized V2 and V5 name sets intersect (and the empty list otherwise);
the overlap list behind the single warning contains exactly the names present
on both sides; and the warning never blocks computation (the pipeline still
returns a result, carrying the warnings, whenever `pv_cost > 0`). -/
theorem C7_double_counting_detector (deal : Deal) :
    (∀ n, n ∈ nameOverlap deal ↔ n ∈ v2Names deal ∧ n ∈ v5Names deal) ∧
    ((detect_double_counting deal).length = 1 ↔
      ∃ n, n ∈ v2Names deal ∧ n ∈ v5Names deal) ∧
    (detect_double_counting deal = [] ↔ ¬∃ n, n ∈ v2Names deal ∧ n ∈ v5Names deal) ∧
    (detect_double_counting deal ≠ [] →
      detect_double_counting deal = [doubleCountWarning (nameOverlap deal)]) ∧
    (∀ cfg : EVEConfig,
      (∃ res, computeEveBase deal cfg = .ok res ∧ res.warnings = detect_double_counting deal) ↔
        0 < pvCost deal) := by
  have hmem : ∀ n, n ∈ nameOverlap deal ↔ n ∈ v2Names deal ∧ n ∈ v5Names deal := by
    intro n
    simp [nameOverlap, List.mem_filter]
  have hex : (∃ n, n ∈ v2Names deal ∧ n ∈ v5Names deal) ↔ nameOverlap deal ≠ [] := by
    constructor
    · rintro ⟨n, hn⟩ hnil
      have := (hmem n).mpr hn
      rw [hnil] at this
      cases this
    · intro hne
      obtain ⟨n, hn⟩ := List.exists_mem_of_ne_nil _ hne
      exact ⟨n, (hmem n).mp hn⟩
  refine ⟨hmem, ?_, ?_, ?_, ?_⟩
  · rw [hex]
    by_cases hO : nameOverlap deal = []
    · simp [detect_double_counting, hO]
    · simp [detect_double_counting, List.isEmpty_iff, hO]
  · rw [hex, not_not]
    by_cases hO : nameOverlap deal = []
    · simp [detect_double_counting, hO]
    · simp [detect_double_counting, List.isEmpty_iff, hO]
  · intro hne
    by_cases hO : nameOverlap deal = []
    · simp [detect_double_counting, hO] at hne
    · simp [detect_double_counting, List.isEmpty_iff, hO]
  · intro cfg
    constructor
    · rintro ⟨res, hres, -⟩
      by_contra hpv
      rw [computeEveBase_eq_error cfg (not_lt.mp hpv)] at hres
      cases hres
    · intro hpv
      exact ⟨baseResult deal cfg, computeEveBase_eq_ok cfg hpv, rfl⟩

/-- The V2 event of `overlapDeal`. -/
def overlapEventV2 : RiskEvent := { name := "Outage ", p0 := 1/2, p1 := 1/4, L0 := 100, L1 := 80 }

/-- The V5 scenario of `overlapDeal`. -/
def overlapScenarioV5 : ResilienceScenario :=
  { name := "outage", p := 1/10, mttr0_hours := 24, mttr1_hours := 8, cost_per_hour := 5 }

/-- A deal whose V2 event and V5 scenario names share a normalized name
("Outage " vs "outage"). -/
def overlapDeal : Deal :=
  { sampleDeal with
    v2_risk_events := some [overlapEventV2]
    v5_resilience := some [overlapScenarioV5] }

/-- Closed-instance witness for C7 at a deal with an actual overlap. -/
theorem C7_double_counting_detector_witness :
    ((detect_double_counting overlapDeal).length = 1 ↔
      ∃ n, n ∈ v2Names overlapDeal ∧ n ∈ v5Names overlapDeal) ∧
    (detect_double_counting overlapDeal).length = 1 ∧
    "outage" ∈ v2Names overlapDeal ∧ "outage" ∈ v5Names overlapDeal := by
  have h2 : v2Names overlapDeal = ["outage"] := rfl
  have h5 : v5Names overlapDeal = ["outage"] := rfl
  have hm2 : "outage" ∈ v2Names overlapDeal := by
    rw [h2]
    exact List.mem_cons_self _ _
  have hm5 : "outage" ∈ v5Names overlapDeal := by
    rw [h5]
    exact List.mem_cons_self _ _
  refine ⟨(C7_double_counting_detector overlapDeal).2.1, ?_, hm2, hm5⟩
  exact ((C7_double_counting_detector overlapDeal).2.1).mpr ⟨"outage", hm2, hm5⟩

/-- The V2 event of `whitespaceDeal`: its name is a single space. -/
def whitespaceEventV2 : RiskEvent := { name := " ", p0 := 0, p1 := 0, L0 := 0, L1 := 0 }

/-- The V5 scenario of `whitespaceDeal`: its name is the empty string. -/
def whitespaceScenarioV5 : ResilienceScenario :=
  { name := "", p := 0, mttr0_hours := 0, mttr1_hours := 0, cost_per_hour := 0 }

/-- The C10 deal: a V2 risk event named `" "` and a V5 resilience scenario
named `""` — distinct names, both whitespace-only or empty. -/
def whitespaceDeal : Deal := {
  meta := { company := { industry := "x" }, horizon_years := 1, discount_rate := 0 }
  investment := { capex_upfront := 1, opex_annual := [0] }
  v2_risk_events := some [whitespaceEventV2]
  v5_resilience := some [whitespaceScenarioV5] }

/-- C10: a V2 event named `" "` and a V5 scenario named `""` are distinct and
unrelated, yet both normalize to the empty string, so the detector reports
them as an overlap and emits a warning. -/
theorem C10_whitespace_names_collide :
    (" " : String) ≠ "" ∧
    v2Names whitespaceDeal = [""] ∧
    v5Names whitespaceDeal = [""] ∧
    nameOverlap whitespaceDeal = [""] ∧
    detect_double_counting whitespaceDeal = [doubleCountWarning [""]] ∧
    (detect_double_counting whitespaceDeal).length = 1 :=
  ⟨by decide, rfl, rfl, rfl, rfl, rfl⟩

/-- C9: the sensitivity loop leaves the input deal unchanged.  In the explicit
state-passing embedding of the loop this is: whenever the loop finishes, the
deal component of its state is exactly the input deal, and every scenario's
delta is a function of that scenario's perturbation applied to a deep copy of
the ORIGINAL deal (so no scenario sees another scenario's mutation — no
aliasing between the copies or with the original). -/
theorem C9_sensitivity_preserves_deal (deal : Deal) (cfg : EVEConfig) (base : ℝ)
    (l : List (String × String)) (acc : List SensEntry) :
    match runSensLoop cfg base l (deal, acc) with
    | .ok st =>
        st.1 = deal ∧
        st.2 = acc ++ l.map (fun s =>
          ⟨s.1, s.2, (baseResult (applyScenario s.1 (deepcopy deal)) cfg).EVI - base⟩)
    | .error _ => True := by
  induction l generalizing acc with
  | nil => simp [runSensLoop]
  | cons s rest ih =>
    obtain ⟨key, label⟩ := s
    rw [runSensLoop]
    cases hres : computeEveBase (applyScenario key (deepcopy deal)) cfg with
    | error e => exact trivial
    | ok r =>
      have hr : r = baseResult (applyScenario key (deepcopy deal)) cfg := by
        unfold computeEveBase at hres
        by_cases hpv : pvCost (applyScenario key (deepcopy deal)) ≤ 0
        · rw [if_pos hpv] at hres
          cases hres
        · rw [if_neg hpv] at hres
          cases hres
          rfl
      subst hr
      dsimp only
      have hstep := ih (acc ++
        [⟨key, label, (baseResult (applyScenario key (deepcopy deal)) cfg).EVI - base⟩])
      cases hloop : runSensLoop cfg base rest (deal, acc ++
          [⟨key, label, (baseResult (applyScenario key (deepcopy deal)) cfg).EVI - base⟩]) with
      | error e => exact trivial
      | ok st =>
        rw [hloop] at hstep
        obtain ⟨h1, h2⟩ := hstep
        refine ⟨h1, ?_⟩
        rw [h2]
        simp

/-- Closed-instance witness for C9 at `sampleDeal` with the default config. -/
theorem C9_sensitivity_preserves_deal_witness :
    match runSensLoop {} 0 sensScenarios (sampleDeal, []) with
    | .ok st =>
        st.1 = sampleDeal ∧
        st.2 = [] ++ sensScenarios.map (fun s =>
          ⟨s.1, s.2, (baseResult (applyScenario s.1 (deepcopy sampleDeal)) {}).EVI - 0⟩)
    | .error _ => True :=
  C9_sensitivity_preserves_deal sampleDeal {} 0 sensScenarios []

theorem applyScenario_v1_none (d : Deal) (h : d.v1_capital_productivity = none) :
    applyScenario "v1_fcf_plus10" d = d := by
  simp [applyScenario, perturbV1, h]

theorem applyScenario_v2_none (d : Deal) (h : d.v2_risk_events = none) :
    applyScenario "v2_p1_minus10" d = d := by
  simp [applyScenario, perturbV2, h]

theorem applyScenario_v3_none (d : Deal) (h : d.v3_initiatives = none) :
    applyScenario "v3_profit_plus10" d = d := by
  simp [applyScenario, perturbV3, h]

theorem applyScenario_v5_none (d : Deal) (h : d.v5_resilience = none) :
    applyScenario "v5_costhr_plus10" d = d := by
  simp [applyScenario, perturbV5, h]

theorem baseResult_EVI_eq (deal : Deal) (cfg : EVEConfig) :
    (baseResult deal cfg).EVI =
      (cfg.weights.v1 : ℝ) * (baseResult deal cfg).pillar_scores.v1 +
      (cfg.weights.v2 : ℝ) * (baseResult deal cfg).pillar_scores.v2 +
      (cfg.weights.v3 : ℝ) * (baseResult deal cfg).pillar_scores.v3 +
      (cfg.weights.v4 : ℝ) * (baseResult deal cfg).pillar_scores.v4 +
      (cfg.weights.v5 : ℝ) * (baseResult deal cfg).pillar_scores.v5 := rfl

theorem baseResult_scores_v1_eq (deal : Deal) (cfg : EVEConfig) :
    (baseResult deal cfg).pillar_scores.v1 =
      logistic_score
        ((compute_v1 deal (discount_factors deal.meta.horizon_years deal.meta.discount_rate) /
          pvCost deal : ℚ) : ℝ) (cfg.logistic_a : ℝ) (cfg.logistic_b : ℝ) := rfl

theorem baseResult_benefits_v1_eq (deal : Deal) (cfg : EVEConfig) :
    (baseResult deal cfg).pillar_pv_benefits.v1 =
      compute_v1 deal (discount_factors deal.meta.horizon_years deal.meta.discount_rate) := rfl

/-- C2: whenever `compute_eve` succeeds with sensitivity enabled, the
sensitivity list has exactly 4 entries carrying the four fixed scenario keys,
is sorted by descending `abs(delta_evi)` with ties in encounter order (every
tie class is listed exactly as in the unsorted scenario-order list), and a
scenario whose pillar dataset is absent still appears with `delta_evi = 0`. -/
theorem C2_sensitivity_list (deal : Deal) (cfg : EVEConfig) (res : EVEResult)
    (hv : deal.Valid) (h : compute_eve deal (some cfg) true = .ok res) :
    res.sensitivities.length = 4 ∧
    List.Perm (res.sensitivities.map (fun e => e.factor))
      ["v1_fcf_plus10", "v2_p1_minus10", "v3_profit_plus10", "v5_costhr_plus10"] ∧
    List.Sorted sensGE res.sensitivities ∧
    (∀ v : ℝ, res.sensitivities.filter (tieb v) = (sensRawEntries deal cfg).filter (tieb v)) ∧
    (deal.v1_capital_productivity = none →
      ((⟨"v1_fcf_plus10", "Scale V1 annual FCF benefits +10%", 0⟩ : SensEntry)) ∈ res.sensitivities) ∧
    (deal.v2_risk_events = none →
      ((⟨"v2_p1_minus10", "Reduce V2 post probabilities p1 by 10% (relative)", 0⟩ : SensEntry)) ∈ res.sensitivities) ∧
    (deal.v3_initiatives = none →
      ((⟨"v3_profit_plus10", "Scale V3 monthly profit +10%", 0⟩ : SensEntry)) ∈ res.sensitivities) ∧
    (deal.v5_resilience = none →
      ((⟨"v5_costhr_plus10", "Scale V5 cost per hour +10%", 0⟩ : SensEntry)) ∈ res.sensitivities) := by
  have hpv : 0 < pvCost deal := by
    by_contra hle
    rw [compute_eve_error cfg true (not_lt.mp hle)] at h
    cases h
  have hres : res = fullResult deal cfg := by
    rw [compute_eve_true_eq cfg hpv] at h
    exact (Except.ok.inj h).symm
  subst hres
  have hsens : (fullResult deal cfg).sensitivities = sortSens (sensRawEntries deal cfg) := rfl
  have hraw : (sensRawEntries deal cfg).map (fun e => e.factor) =
      ["v1_fcf_plus10", "v2_p1_minus10", "v3_profit_plus10", "v5_costhr_plus10"] := rfl
  refine ⟨?_, ?_, ?_, ?_, ?_, ?_, ?_, ?_⟩
  · rw [hsens, (sortSens_perm _).length_eq]
    rfl
  · rw [hsens]
    simpa [hraw] using (sortSens_perm (sensRawEntries deal cfg)).map (fun e => e.factor)
  · rw [hsens]
    exact sortSens_sorted _
  · intro v
    rw [hsens]
    exact sortSens_filter_tieb v _
  · intro hnone
    rw [hsens]
    apply (sortSens_perm _).mem_iff.mpr
    have hid : applyScenario "v1_fcf_plus10" (deepcopy deal) = deal :=
      applyScenario_v1_none _ hnone
    have hz : (⟨"v1_fcf_plus10", "Scale V1 annual FCF benefits +10%",
        (baseResult (applyScenario "v1_fcf_plus10" (deepcopy deal)) cfg).EVI -
          (baseResult deal cfg).EVI⟩ : SensEntry) =
        ⟨"v1_fcf_plus10", "Scale V1 annual FCF benefits +10%", 0⟩ := by
      rw [hid, sub_self]
    rw [← hz]
    simp [sensRawEntries, sensScenarios]
  · intro hnone
    rw [hsens]
    apply (sortSens_perm _).mem_iff.mpr
    have hid : applyScenario "v2_p1_minus10" (deepcopy deal) = deal :=
      applyScenario_v2_none _ hnone
    have hz : (⟨"v2_p1_minus10", "Reduce V2 post probabilities p1 by 10% (relative)",
        (baseResult (applyScenario "v2_p1_minus10" (deepcopy deal)) cfg).EVI -
          (baseResult deal cfg).EVI⟩ : SensEntry) =
        ⟨"v2_p1_minus10", "Reduce V2 post probabilities p1 by 10% (relative)", 0⟩ := by
      rw [hid, sub_self]
    rw [← hz]
    simp [sensRawEntries, sensScenarios]
  · intro hnone
    rw [hsens]
    apply (sortSens_perm _).mem_iff.mpr
    have hid : applyScenario "v3_profit_plus10" (deepcopy deal) = deal :=
      applyScenario_v3_none _ hnone
    have hz : (⟨"v3_profit_plus10", "Scale V3 monthly profit +10%",
        (baseResult (applyScenario "v3_profit_plus10" (deepcopy deal)) cfg).EVI -
          (baseResult deal cfg).EVI⟩ : SensEntry) =
        ⟨"v3_profit_plus10", "Scale V3 monthly profit +10%", 0⟩ := by
      rw [hid, sub_self]
    rw [← hz]
    simp [sensRawEntries, sensScenarios]
  · intro hnone
    rw [hsens]
    apply (sortSens_perm _).mem_iff.mpr
    have hid : applyScenario "v5_costhr_plus10" (deepcopy deal) = deal :=
      applyScenario_v5_none _ hnone
    have hz : (⟨"v5_costhr_plus10", "Scale V5 cost per hour +10%",
        (baseResult (applyScenario "v5_costhr_plus10" (deepcopy deal)) cfg).EVI -
          (baseResult deal cfg).EVI⟩ : SensEntry) =
        ⟨"v5_costhr_plus10", "Scale V5 cost per hour +10%", 0⟩ := by
      rw [hid, sub_self]
    rw [← hz]
    simp [sensRawEntries, sensScenarios]

/-- Closed-instance witness for C2 at `sampleDeal` with the default config. -/
theorem C2_sensitivity_list_witness :
    sampleDeal.Valid ∧
    compute_eve sampleDeal (some {}) true = .ok (fullResult sampleDeal {}) ∧
    (fullResult sampleDeal {}).sensitivities.length = 4 ∧
    List.Sorted sensGE (fullResult sampleDeal {}).sensitivities :=
  ⟨sampleDeal_valid, compute_eve_true_eq {} sampleDeal_pv_pos,
    (C2_sensitivity_list sampleDeal {} (fullResult sampleDeal {}) sampleDeal_valid
      (compute_eve_true_eq {} sampleDeal_pv_pos)).1,
    (C2_sensitivity_list sampleDeal {} (fullResult sampleDeal {}) sampleDeal_valid
      (compute_eve_true_eq {} sampleDeal_pv_pos)).2.2.1⟩

/-- The deal obtained by replacing the V1 FCF benefit list and keeping every
other field fixed. -/
def bumpV1 (deal : Deal) (v1d : V1CapitalProductivity) (fcf' : List ℚ) : Deal :=
  { deal with v1_capital_productivity := some { v1d with fcf_benefit_annual := some fcf' } }

/-- C8: for a valid deal with non-negative weights (and positive logistic
steepness, as the configuration contract requires), raising the V1
`fcf_benefit_annual` entries pointwise while holding everything else fixed
never decreases the V1 PV benefit, the V1 score, or the EVI. -/
theorem baseResult_scores_v2_eq (deal : Deal) (cfg : EVEConfig) :
    (baseResult deal cfg).pillar_scores.v2 =
      logistic_score
        ((compute_v2 deal (discount_factors deal.meta.horizon_years deal.meta.discount_rate) /
          pvCost deal : ℚ) : ℝ) (cfg.logistic_a : ℝ) (cfg.logistic_b : ℝ) := rfl

theorem baseResult_scores_v3_eq (deal : Deal) (cfg : EVEConfig) :
    (baseResult deal cfg).pillar_scores.v3 =
      logistic_score
        ((compute_v3 deal (discount_factors deal.meta.horizon_years deal.meta.discount_rate) /
          pvCost deal : ℚ) : ℝ) (cfg.logistic_a : ℝ) (cfg.logistic_b : ℝ) := rfl

theorem baseResult_scores_v4_eq (deal : Deal) (cfg : EVEConfig) :
    (baseResult deal cfg).pillar_scores.v4 =
      logistic_score ((compute_v4 deal / pvCost deal : ℚ) : ℝ)
        (cfg.logistic_a : ℝ) (cfg.logistic_b : ℝ) := rfl

theorem baseResult_scores_v5_eq (deal : Deal) (cfg : EVEConfig) :
    (baseResult deal cfg).pillar_scores.v5 =
      logistic_score
        ((compute_v5 deal (discount_factors deal.meta.horizon_years deal.meta.discount_rate) /
          pvCost deal : ℚ) : ℝ) (cfg.logistic_a : ℝ) (cfg.logistic_b : ℝ) := rfl

/-- The V1 pillar field of the bumped deal. -/
theorem bumpV1_v1 (deal : Deal) (v1d : V1CapitalProductivity) (fcf2 : List ℚ) :
    (bumpV1 deal v1d fcf2).v1_capital_productivity =
      some { v1d with fcf_benefit_annual := some fcf2 } := rfl

/-- C8: for a valid deal with non-negative weights (and positive logistic
steepness, as the configuration contract requires), raising the V1
`fcf_benefit_annual` entries pointwise while holding everything else fixed
never decreases the V1 PV benefit, the V1 score, or the EVI. -/
theorem C8_v1_monotonicity (deal : Deal) (cfg : EVEConfig) (v1d : V1CapitalProductivity)
    (fcf fcf' : List ℚ) (res res' : EVEResult)
    (hv : deal.Valid)
    (hw1 : 0 ≤ cfg.weights.v1) (hw2 : 0 ≤ cfg.weights.v2) (hw3 : 0 ≤ cfg.weights.v3)
    (hw4 : 0 ≤ cfg.weights.v4) (hw5 : 0 ≤ cfg.weights.v5)
    (ha : 0 < cfg.logistic_a)
    (hv1 : deal.v1_capital_productivity = some v1d)
    (hfcf : v1d.fcf_benefit_annual = some fcf)
    (hpoint : ∀ i, fcf.getD i 0 ≤ fcf'.getD i 0)
    (hres : compute_eve deal (some cfg) false = .ok res)
    (hres' : compute_eve (bumpV1 deal v1d fcf') (some cfg) false = .ok res') :
    res.pillar_pv_benefits.v1 ≤ res'.pillar_pv_benefits.v1 ∧
    res.pillar_scores.v1 ≤ res'.pillar_scores.v1 ∧
    res.EVI ≤ res'.EVI := by
  have hpvE : pvCost (bumpV1 deal v1d fcf') = pvCost deal := rfl
  have hddE : discount_factors (bumpV1 deal v1d fcf').meta.horizon_years
        (bumpV1 deal v1d fcf').meta.discount_rate =
      discount_factors deal.meta.horizon_years deal.meta.discount_rate := rfl
  have hc2 : compute_v2 (bumpV1 deal v1d fcf')
        (discount_factors deal.meta.horizon_years deal.meta.discount_rate) =
      compute_v2 deal (discount_factors deal.meta.horizon_years deal.meta.discount_rate) := rfl
  have hc3 : compute_v3 (bumpV1 deal v1d fcf')
        (discount_factors deal.meta.horizon_years deal.meta.discount_rate) =
      compute_v3 deal (discount_factors deal.meta.horizon_years deal.meta.discount_rate) := rfl
  have hc4 : compute_v4 (bumpV1 deal v1d fcf') = compute_v4 deal := rfl
  have hc5 : compute_v5 (bumpV1 deal v1d fcf')
        (discount_factors deal.meta.horizon_years deal.meta.discount_rate) =
      compute_v5 deal (discount_factors deal.meta.horizon_years deal.meta.discount_rate) := rfl
  have hpv : 0 < pvCost deal := by
    by_contra hle
    rw [compute_eve_error cfg false (not_lt.mp hle)] at hres
    cases hres
  have hpv' : 0 < pvCost (bumpV1 deal v1d fcf') := by
    rw [hpvE]
    exact hpv
  have hres_eq : res = baseResult deal cfg := by
    rw [compute_eve_false_eq cfg hpv] at hres
    exact (Except.ok.inj hres).symm
  have hres_eq' : res' = baseResult (bumpV1 deal v1d fcf') cfg := by
    rw [compute_eve_false_eq cfg hpv'] at hres'
    exact (Except.ok.inj hres').symm
  subst hres_eq hres_eq'
  have hr : 0 ≤ deal.meta.discount_rate := hv.2.2.1
  have hben : compute_v1 deal
        (discount_factors deal.meta.horizon_years deal.meta.discount_rate) ≤
      compute_v1 (bumpV1 deal v1d fcf')
        (discount_factors deal.meta.horizon_years deal.meta.discount_rate) := by
    simp only [compute_v1, hv1, hfcf, bumpV1_v1]
    apply List.sum_le_sum
    intro t ht
    apply mul_le_mul_of_nonneg_left (hpoint t) (discount_factors_getD_nonneg hr)
  have hratio : compute_v1 deal
        (discount_factors deal.meta.horizon_years deal.meta.discount_rate) / pvCost deal ≤
      compute_v1 (bumpV1 deal v1d fcf')
        (discount_factors deal.meta.horizon_years deal.meta.discount_rate) / pvCost deal := by
    rw [div_eq_mul_inv, div_eq_mul_inv]
    exact mul_le_mul_of_nonneg_right hben (inv_nonneg.mpr (le_of_lt hpv))
  have hscore : (baseResult deal cfg).pillar_scores.v1 ≤
      (baseResult (bumpV1 deal v1d fcf') cfg).pillar_scores.v1 := by
    rw [baseResult_scores_v1_eq deal cfg, baseResult_scores_v1_eq (bumpV1 deal v1d fcf') cfg,
      hddE, hpvE]
    apply logistic_score_le_of_le _ _ (by exact_mod_cast ha)
    exact_mod_cast hratio
  refine ⟨?_, hscore, ?_⟩
  · rw [baseResult_benefits_v1_eq deal cfg, baseResult_benefits_v1_eq (bumpV1 deal v1d fcf') cfg,
      hddE]
    exact hben
  · rw [baseResult_EVI_eq deal cfg, baseResult_EVI_eq (bumpV1 deal v1d fcf') cfg,
      baseResult_scores_v2_eq deal cfg, baseResult_scores_v2_eq (bumpV1 deal v1d fcf') cfg,
      baseResult_scores_v3_eq deal cfg, baseResult_scores_v3_eq (bumpV1 deal v1d fcf') cfg,
      baseResult_scores_v4_eq deal cfg, baseResult_scores_v4_eq (bumpV1 deal v1d fcf') cfg,
      baseResult_scores_v5_eq deal cfg, baseResult_scores_v5_eq (bumpV1 deal v1d fcf') cfg,
      hddE, hpvE, hc2, hc3, hc4, hc5]
    have hw1R : (0:ℝ) ≤ (cfg.weights.v1 : ℝ) := by exact_mod_cast hw1
    have hmul := mul_le_mul_of_nonneg_left hscore hw1R
    linarith

/-- The V1 pillar dataset of `sampleDeal`, as a named record. -/
def sampleV1d : V1CapitalProductivity := { fcf_benefit_annual := some [50, 50] }

theorem sample_fcf_pointwise : ∀ i, ([50, 50] : List ℚ).getD i 0 ≤ ([55, 60] : List ℚ).getD i 0 := by
  intro i
  match i with
  | 0 => norm_num
  | 1 => norm_num
  | (n+2) => simp [List.getD]

theorem bumped_sample_pv_pos : 0 < pvCost (bumpV1 sampleDeal sampleV1d [55, 60]) :=
  sampleDeal_pv_pos

/-- Closed-instance witness for C8: bump `sampleDeal`'s FCF list from
`[50, 50]` to `[55, 60]`. -/
theorem C8_v1_monotonicity_witness :
    sampleDeal.Valid ∧
    sampleDeal.v1_capital_productivity = some sampleV1d ∧
    (∀ i, ([50, 50] : List ℚ).getD i 0 ≤ ([55, 60] : List ℚ).getD i 0) ∧
    (baseResult sampleDeal {}).pillar_scores.v1 ≤
      (baseResult (bumpV1 sampleDeal sampleV1d [55, 60]) {}).pillar_scores.v1 ∧
    (baseResult sampleDeal {}).EVI ≤ (baseResult (bumpV1 sampleDeal sampleV1d [55, 60]) {}).EVI := by
  have hmain := C8_v1_monotonicity sampleDeal {} sampleV1d [50, 50] [55, 60]
    (baseResult sampleDeal {}) (baseResult (bumpV1 sampleDeal sampleV1d [55, 60]) {})
    sampleDeal_valid
    (by norm_num [defaultWeights]) (by norm_num [defaultWeights]) (by norm_num [defaultWeights])
    (by norm_num [defaultWeights]) (by norm_num [defaultWeights])
    (by norm_num) rfl rfl sample_fcf_pointwise
    (compute_eve_false_eq {} sampleDeal_pv_pos)
    (compute_eve_false_eq {} bumped_sample_pv_pos)
  exact ⟨sampleDeal_valid, rfl, sample_fcf_pointwise, hmain.2.1, hmain.2.2⟩

end EVE
